import Mathlib

/-!
ProfilePage: gate, data loading, sort/filter projection and modal lifecycle.

Shallow embedding of `frontend/src/components/profile/ProfilePage.jsx`.

* The React state of the component is the record `State`; every handler of the
  component is a function `State → State`.
* The three network calls (`getGitStatus`, `getProfiles`, `getFormats`) are external:
  the outcome of each awaited promise is an argument of type `Except String _`
  (`.error e` is a rejected promise, `.ok v` a resolved one).
* `State.log` is instrumentation: it records, in order, each invocation of
  `fetchGitStatus`, `fetchProfiles`, `fetchFormats` and each `console.error`.
* An `async` handler is modelled by its complete run (start, awaited outcome,
  continuation).  `fetchProfiles` writes only `profiles`, `allTags`, `isLoading`;
  `fetchFormats` writes only `formats`; `handleCloseModal` writes only the three modal
  fields, so the order in which their continuations land does not change the final state.
* Built-ins of the JavaScript platform whose result depends on the engine or the locale
  (`Date.parse`, the calendar-day text of a valid date, `String.prototype.localeCompare`)
  are fields of `Platform`.
-/

namespace ProfilePage

/-! ## Data model -/

/-- Profile object as served by the backend.  A field of type `Option _` may be absent
(`undefined`) on the JavaScript object; `rest` holds every further property. -/
structure Profile where
  id : Int
  name : String
  tags : Option (List String)
  date_created : Option String
  date_modified : Option String
  custom_formats : Option (List Int)
  rest : List (String × String)
  deriving DecidableEq, Repr

/-- Format object; only consumed by the modal. -/
structure Format where
  id : Int
  name : String
  deriving DecidableEq, Repr

/-- One merge-conflict descriptor of the repository status. -/
structure ConflictDescriptor where
  file_path : String
  deriving DecidableEq, Repr

/-- The `data` member of the status result. -/
structure GitData where
  merge_conflicts : Option (List ConflictDescriptor)
  deriving DecidableEq, Repr

/-- Result object of `getGitStatus`: `success` and an optional `data`. -/
structure GitStatusResult where
  success : Bool
  data : Option GitData
  deriving DecidableEq, Repr

/-- Instrumentation events. -/
inductive Event
  | fetchGitStatus
  | fetchProfiles
  | fetchFormats
  | consoleError (label : String) (error : String)
  deriving DecidableEq, Repr

/-- The `useState` cells of `ProfilePage` (lines 12-22) plus the event log. -/
structure State where
  profiles : List Profile
  formats : List Format
  isModalOpen : Bool
  selectedProfile : Option Profile
  sortBy : String
  filterType : String
  filterValue : String
  allTags : List String
  isCloning : Bool
  isLoading : Bool
  mergeConflicts : List ConflictDescriptor
  log : List Event
  deriving DecidableEq, Repr

/-- Initial values of the `useState` cells (lines 12-22). -/
def initialState : State where
  profiles := []
  formats := []
  isModalOpen := false
  selectedProfile := none
  sortBy := "title"
  filterType := "none"
  filterValue := ""
  allTags := []
  isCloning := false
  isLoading := true
  mergeConflicts := []
  log := []

/-- Engine- and locale-dependent built-ins.
* `dateParse s` is `Date.parse(s)`: `none` is `NaN`, `some t` a time value in ms.
* `dayString t` is `toDateString()` of a valid date with time value `t` (local time).
* `localeCompare a b` is `a.localeCompare(b)`.
* `dayString_valid`: the text of a valid date is weekday, month, day and year (ECMAScript
  `DateString`), never the text reserved for an invalid date. -/
structure Platform where
  dateParse : String → Option Int
  dayString : Int → String
  localeCompare : String → String → Int
  dayString_valid : ∀ t, dayString t ≠ "Invalid Date"

/-! ## JavaScript built-ins used by the component -/

/-- Expression `x || []` for `x` an array or `undefined`: an array (even empty) is truthy. -/
def orEmpty {α : Type} (x : Option (List α)) : List α :=
  match x with
  | some l => l
  | none => []

/-- Adding one value to a `Set`: kept once, in first-insertion order. -/
def setAdd (acc : List String) (x : String) : List String :=
  if x ∈ acc then acc else acc ++ [x]

/-- Expression `[...new Set(xs)]`. -/
def spreadSet (xs : List String) : List String :=
  xs.foldl setAdd []

/-- Expression `new Date(v)` for `v` a string or `undefined`; `none` is an Invalid Date
(`new Date(undefined)` has time value `NaN`). -/
def newDate (env : Platform) (v : Option String) : Option Int :=
  match v with
  | none => none
  | some s => env.dateParse s

/-- Method `Date.prototype.toDateString`: the text `Invalid Date` for `NaN`. -/
def toDateString (env : Platform) (d : Option Int) : String :=
  match d with
  | none => "Invalid Date"
  | some t => env.dayString t

/-- Expression `d1 - d2` on two dates: `NaN` (`none`) as soon as one is invalid.  Only the
sign of the difference is used by the sort. -/
def dateSub (d1 d2 : Option Int) : Option Int :=
  match d1, d2 with
  | some t1, some t2 => some (t1 - t2)
  | _, _ => none

/-- Abstract operation `SortCompare` of `Array.prototype.sort`: a `NaN` result of the
comparator counts as `+0`. -/
def sortCompare {α : Type} (cmp : α → α → Option Int) (x y : α) : Int :=
  match cmp x y with
  | none => 0
  | some v => v

/-- Insertion of `x` in front of the first element it does not have to follow. -/
def orderedInsert {α : Type} (cmp : α → α → Option Int) (x : α) : List α → List α
  | [] => [x]
  | y :: ys =>
    if sortCompare cmp x y ≤ 0 then x :: y :: ys else y :: orderedInsert cmp x ys

/-- Method `Array.prototype.sort(cmp)` as a stable sort (ECMAScript 2019 and later).  For a
consistent comparator the result of a stable sort is unique, so the algorithm chosen here
(insertion from the right) does not matter; for an inconsistent comparator the standard
leaves the order to the engine and only guarantees a permutation. -/
def jsSort {α : Type} (cmp : α → α → Option Int) : List α → List α
  | [] => []
  | x :: xs => orderedInsert cmp x (jsSort cmp xs)

/-- Arrays are reference values: a store maps a reference (an index) to array contents. -/
abbrev ArrayStore := List (List Profile)

/-- Method `Array.prototype.filter`: allocates a fresh array, the receiver is untouched. -/
def arrayFilter (σ : ArrayStore) (r : Nat) (keep : Profile → Bool) : ArrayStore × Nat :=
  (σ ++ [(σ.getD r []).filter keep], σ.length)

/-- Method `Array.prototype.sort`: sorts the receiver in place and returns it. -/
def arraySort (σ : ArrayStore) (r : Nat) (cmp : Profile → Profile → Option Int) :
    ArrayStore × Nat :=
  (σ.set r (jsSort cmp (σ.getD r [])), r)

/-! ## The component -/

/-- Append one event to the log. -/
def record (e : Event) (s : State) : State :=
  { s with log := s.log ++ [e] }

/-- Lines 38-53. -/
def fetchProfiles (resp : Except String (List Profile)) (s : State) : State :=
  let s := record .fetchProfiles s
  let s :=
    match resp with
    | .ok fetchedProfiles =>
      let s := { s with profiles := fetchedProfiles }
      let tags := spreadSet (fetchedProfiles.flatMap (fun profile => orEmpty profile.tags))
      { s with allTags := tags }
    | .error error => record (.consoleError "Error fetching profiles:" error) s
  { s with isLoading := false }

/-- Lines 55-62. -/
def fetchFormats (resp : Except String (List Format)) (s : State) : State :=
  let s := record .fetchFormats s
  match resp with
  | .ok fetchedFormats => { s with formats := fetchedFormats }
  | .error error => record (.consoleError "Error fetching formats:" error) s

/-- The `catch` block of `fetchGitStatus`, lines 76-79. -/
def fetchGitStatusCatch (error : String) (s : State) : State :=
  let s := record (.consoleError "Error fetching Git status:" error) s
  { s with isLoading := false }

/-- Lines 64-80.  Reading `.merge_conflicts` of an absent `data`, or `.length` of an
absent `merge_conflicts`, throws a `TypeError` that the `catch` block receives. -/
def fetchGitStatus (git : Except String GitStatusResult)
    (profilesResp : Except String (List Profile))
    (formatsResp : Except String (List Format)) (s : State) : State :=
  let s := record .fetchGitStatus s
  match git with
  | .error error => fetchGitStatusCatch error s
  | .ok result =>
    if result.success then
      match result.data with
      | none => fetchGitStatusCatch "TypeError" s
      | some data =>
        let s := { s with mergeConflicts := orEmpty data.merge_conflicts }
        match data.merge_conflicts with
        | none => fetchGitStatusCatch "TypeError" s
        | some merge_conflicts =>
          if merge_conflicts.length = 0 then
            let s := fetchProfiles profilesResp s
            fetchFormats formatsResp s
          else
            { s with isLoading := false }
    else s

/-- Lines 34-36: the effect run once when the view is mounted. -/
def useEffectOnMount (git : Except String GitStatusResult)
    (profilesResp : Except String (List Profile))
    (formatsResp : Except String (List Format)) : State :=
  fetchGitStatus git profilesResp formatsResp initialState

/-- Lines 82-92; the argument defaults to `null` (`none`). -/
def handleOpenModal (profile : Option Profile) (s : State) : State :=
  let safeProfile :=
    match profile with
    | some profile => some { profile with custom_formats := some (orEmpty profile.custom_formats) }
    | none => none
  { s with selectedProfile := safeProfile, isModalOpen := true, isCloning := false }

/-- Lines 94-98. -/
def handleCloseModal (s : State) : State :=
  { s with selectedProfile := none, isModalOpen := false, isCloning := false }

/-- Lines 100-110. -/
def handleCloneProfile (profile : Profile) (s : State) : State :=
  let clonedProfile : Profile :=
    { profile with
      id := 0
      name := profile.name ++ " [COPY]"
      custom_formats := some (orEmpty profile.custom_formats) }
  { s with selectedProfile := some clonedProfile, isModalOpen := true, isCloning := true }

/-- Lines 112-115. -/
def handleSaveProfile (profilesResp : Except String (List Profile)) (s : State) : State :=
  let s := fetchProfiles profilesResp s
  handleCloseModal s

/-- The callback given to `filter`, lines 122-132, as the truthiness of its result. -/
def filterCallback (env : Platform) (filterType filterValue : String)
    (profile : Profile) : Bool :=
  if filterType = "tag" then
    match profile.tags with
    | none => false
    | some tags => decide (filterValue ∈ tags)
  else if filterType = "date" then
    let profileDate := newDate env profile.date_modified
    let filterDate := newDate env (some filterValue)
    decide (toDateString env profileDate = toDateString env filterDate)
  else true

/-- The comparator given to `sort`, lines 133-140. -/
def sortCallback (env : Platform) (sortBy : String) (a b : Profile) : Option Int :=
  if sortBy = "name" then some (env.localeCompare a.name b.name)
  else if sortBy = "dateCreated" then
    dateSub (newDate env b.date_created) (newDate env a.date_created)
  else if sortBy = "dateModified" then
    dateSub (newDate env b.date_modified) (newDate env a.date_modified)
  else some 0

/-- Lines 121-140 on the array store: `profiles.filter(..).sort(..)` where `profilesRef`
is the reference held in the `profiles` cell.  Returns the new store and the reference
of the projection. -/
def sortedAndFilteredProfilesOn (env : Platform) (s : State) (σ : ArrayStore)
    (profilesRef : Nat) : ArrayStore × Nat :=
  let filtered := arrayFilter σ profilesRef (filterCallback env s.filterType s.filterValue)
  arraySort filtered.1 filtered.2 (sortCallback env s.sortBy)

/-- Lines 121-140: contents of the projection computed from the held collection. -/
def sortedAndFilteredProfiles (env : Platform) (s : State) : List Profile :=
  let out := sortedAndFilteredProfilesOn env s [s.profiles] 0
  out.1.getD out.2 []

/-- Number of invocations of an event in a log. -/
def invocations (e : Event) (s : State) : Nat :=
  s.log.count e

/-- A small concrete platform used to evaluate the definitions: two ISO days are parsed,
every other text is rejected; collation is the plain code-point order. -/
def samplePlatform : Platform where
  dateParse := fun s =>
    if s = "2024-01-01" then some 1704067200000
    else if s = "2024-06-01" then some 1717200000000
    else none
  dayString := fun t =>
    if t = 1704067200000 then "Mon Jan 01 2024"
    else if t = 1717200000000 then "Sat Jun 01 2024"
    else "Thu Jan 01 1970"
  localeCompare := fun a b => if a < b then -1 else if a = b then 0 else 1
  dayString_valid := by
    intro t
    dsimp only
    split_ifs <;> decide

/-- Sample profile: persisted, tagged, without a format list. -/
def sampleProfile : Profile where
  id := 7
  name := "Default"
  tags := some ["x", "hd"]
  date_created := some "2024-01-01"
  date_modified := some "2024-06-01"
  custom_formats := none
  rest := [("description", "base profile")]

/-- Sample profile created later, without tags and without a modification date. -/
def sampleProfileLate : Profile where
  id := 9
  name := "Anime"
  tags := none
  date_created := some "2024-06-01"
  date_modified := none
  custom_formats := some [3, 4]
  rest := []

/-! ## Lemmas on the built-ins -/

theorem mem_setAdd (acc : List String) (x y : String) :
    y ∈ setAdd acc x ↔ y ∈ acc ∨ y = x := by
  unfold setAdd
  split
  · constructor
    · intro h
      exact Or.inl h
    · rintro (h | rfl)
      · exact h
      · assumption
  · simp

theorem nodup_setAdd (acc : List String) (x : String) (h : acc.Nodup) :
    (setAdd acc x).Nodup := by
  unfold setAdd
  split
  · exact h
  · rename_i hx
    rw [List.nodup_append]
    refine ⟨h, List.nodup_singleton x, ?_⟩
    intro a ha hb
    rw [List.mem_singleton] at hb
    subst hb
    exact hx ha

theorem mem_foldl_setAdd (xs : List String) :
    ∀ (acc : List String) (y : String), y ∈ xs.foldl setAdd acc ↔ y ∈ acc ∨ y ∈ xs := by
  induction xs with
  | nil => intro acc y; simp
  | cons x xs ih =>
    intro acc y
    rw [List.foldl_cons, ih, mem_setAdd, List.mem_cons]
    tauto

theorem nodup_foldl_setAdd (xs : List String) :
    ∀ acc : List String, acc.Nodup → (xs.foldl setAdd acc).Nodup := by
  induction xs with
  | nil => intro acc h; exact h
  | cons x xs ih =>
    intro acc h
    rw [List.foldl_cons]
    exact ih _ (nodup_setAdd acc x h)

theorem mem_spreadSet (xs : List String) (y : String) : y ∈ spreadSet xs ↔ y ∈ xs := by
  unfold spreadSet
  rw [mem_foldl_setAdd]
  simp

theorem nodup_spreadSet (xs : List String) : (spreadSet xs).Nodup :=
  nodup_foldl_setAdd xs [] List.nodup_nil

theorem orderedInsert_perm {α : Type} (cmp : α → α → Option Int) (x : α) (l : List α) :
    (orderedInsert cmp x l).Perm (x :: l) := by
  induction l with
  | nil => exact List.Perm.refl _
  | cons y ys ih =>
    unfold orderedInsert
    split
    · exact List.Perm.refl _
    · exact (List.Perm.cons y ih).trans (List.Perm.swap x y ys)

theorem jsSort_perm {α : Type} (cmp : α → α → Option Int) (l : List α) :
    (jsSort cmp l).Perm l := by
  induction l with
  | nil => exact List.Perm.refl _
  | cons x xs ih =>
    unfold jsSort
    exact (orderedInsert_perm cmp x _).trans (List.Perm.cons x ih)

/-- With a comparator that never asks for a swap the sort leaves the list as it is. -/
theorem jsSort_of_le_zero {α : Type} (cmp : α → α → Option Int)
    (h : ∀ a b, sortCompare cmp a b ≤ 0) (l : List α) : jsSort cmp l = l := by
  induction l with
  | nil => rfl
  | cons x xs ih =>
    unfold jsSort
    rw [ih]
    cases xs with
    | nil => rfl
    | cons y ys =>
      unfold orderedInsert
      rw [if_pos (h x y)]

/-- Inserting into a list sorted by decreasing key keeps it sorted. -/
theorem orderedInsert_pairwise {α : Type} (cmp : α → α → Option Int) (key : α → Int)
    (x : α) (l : List α)
    (hx : ∀ b ∈ l, (sortCompare cmp x b ≤ 0 ↔ key b ≤ key x))
    (hs : l.Pairwise (fun a b => key b ≤ key a)) :
    (orderedInsert cmp x l).Pairwise (fun a b => key b ≤ key a) := by
  induction l with
  | nil => simp [orderedInsert]
  | cons y ys ih =>
    have hy := hx y (List.mem_cons_self y ys)
    rw [List.pairwise_cons] at hs
    unfold orderedInsert
    split
    · rename_i hle
      have hyx : key y ≤ key x := hy.mp hle
      rw [List.pairwise_cons]
      refine ⟨?_, List.pairwise_cons.mpr hs⟩
      intro b hb
      rcases List.mem_cons.mp hb with rfl | hb
      · exact hyx
      · exact le_trans (hs.1 b hb) hyx
    · rename_i hle
      have hxy : key x < key y := by
        by_contra hcon
        exact hle (hy.mpr (not_lt.mp hcon))
      rw [List.pairwise_cons]
      refine ⟨?_, ih (fun b hb => hx b (List.mem_cons_of_mem y hb)) hs.2⟩
      intro b hb
      rcases List.mem_cons.mp ((orderedInsert_perm cmp x ys).mem_iff.mp hb) with rfl | hb
      · exact le_of_lt hxy
      · exact hs.1 b hb

/-- Inserting does not disturb the relative order of the elements of one key. -/
theorem orderedInsert_filter_key {α : Type} (cmp : α → α → Option Int) (key : α → Int)
    (t : Int) (x : α) (l : List α)
    (hx : ∀ b ∈ l, (sortCompare cmp x b ≤ 0 ↔ key b ≤ key x)) :
    (orderedInsert cmp x l).filter (fun a => decide (key a = t)) =
      (x :: l).filter (fun a => decide (key a = t)) := by
  induction l with
  | nil => rfl
  | cons y ys ih =>
    have hy := hx y (List.mem_cons_self y ys)
    unfold orderedInsert
    split
    · rfl
    · rename_i hle
      have hne : key y ≠ key x := by
        intro heq
        exact hle (hy.mpr (le_of_eq heq))
      have ih2 := ih (fun b hb => hx b (List.mem_cons_of_mem y hb))
      rw [List.filter_cons, ih2]
      by_cases h1 : key y = t
      · have h2 : ¬ key x = t := fun h => hne (h1.trans h.symm)
        simp [List.filter_cons, h1, h2]
      · simp [List.filter_cons, h1]

/-- A stable sort by decreasing key: sorted, and each key class keeps its input order. -/
theorem jsSort_sorted_stable {α : Type} (cmp : α → α → Option Int) (key : α → Int)
    (l : List α)
    (h : ∀ a ∈ l, ∀ b ∈ l, (sortCompare cmp a b ≤ 0 ↔ key b ≤ key a)) :
    (jsSort cmp l).Pairwise (fun a b => key b ≤ key a) ∧
      ∀ t : Int, (jsSort cmp l).filter (fun a => decide (key a = t)) =
        l.filter (fun a => decide (key a = t)) := by
  induction l with
  | nil => exact ⟨List.Pairwise.nil, fun _ => rfl⟩
  | cons x xs ih =>
    have ih2 := ih (fun a ha b hb =>
      h a (List.mem_cons_of_mem x ha) b (List.mem_cons_of_mem x hb))
    have hx : ∀ b ∈ jsSort cmp xs, (sortCompare cmp x b ≤ 0 ↔ key b ≤ key x) :=
      fun b hb => h x (List.mem_cons_self x xs) b
        (List.mem_cons_of_mem x ((jsSort_perm cmp xs).mem_iff.mp hb))
    unfold jsSort
    refine ⟨orderedInsert_pairwise cmp key x _ hx ih2.1, ?_⟩
    intro t
    rw [orderedInsert_filter_key cmp key t x _ hx, List.filter_cons, List.filter_cons, ih2.2 t]

/-- The projection on a store: a fresh array holding the sorted filtered contents; every
array that existed before is left as it was. -/
theorem sortedAndFilteredProfilesOn_eq (env : Platform) (s : State) (σ : ArrayStore)
    (r : Nat) :
    sortedAndFilteredProfilesOn env s σ r =
      (σ ++ [jsSort (sortCallback env s.sortBy)
        ((σ.getD r []).filter (filterCallback env s.filterType s.filterValue))], σ.length) := by
  simp [sortedAndFilteredProfilesOn, arrayFilter, arraySort, List.getD_eq_getElem?_getD]

/-- The projection is the stable sort of the filtered held collection. -/
theorem sortedAndFilteredProfiles_eq (env : Platform) (s : State) :
    sortedAndFilteredProfiles env s =
      jsSort (sortCallback env s.sortBy)
        (s.profiles.filter (filterCallback env s.filterType s.filterValue)) := by
  simp [sortedAndFilteredProfiles, sortedAndFilteredProfilesOn_eq,
    List.getD_eq_getElem?_getD]

theorem mem_sortedAndFilteredProfiles (env : Platform) (s : State) (p : Profile) :
    p ∈ sortedAndFilteredProfiles env s ↔
      p ∈ s.profiles ∧ filterCallback env s.filterType s.filterValue p = true := by
  rw [sortedAndFilteredProfiles_eq, (jsSort_perm _ _).mem_iff, List.mem_filter]

/-! ## Gate and data loading -/

/-- C1: for every status result that reports success, `fetchProfiles` and `fetchFormats`
are each invoked exactly once on activation when `merge_conflicts` is the empty list, and
neither is invoked, the held profile collection staying the initial empty list, when
`merge_conflicts` is non-empty. -/
theorem gate_decides_data_loading (result : GitStatusResult)
    (merge_conflicts : List ConflictDescriptor)
    (profilesResp : Except String (List Profile)) (formatsResp : Except String (List Format))
    (hsuccess : result.success = true)
    (hdata : result.data = some ⟨some merge_conflicts⟩) :
    (merge_conflicts = [] →
      invocations Event.fetchProfiles (useEffectOnMount (.ok result) profilesResp formatsResp) = 1 ∧
      invocations Event.fetchFormats (useEffectOnMount (.ok result) profilesResp formatsResp) = 1) ∧
    (merge_conflicts ≠ [] →
      invocations Event.fetchProfiles (useEffectOnMount (.ok result) profilesResp formatsResp) = 0 ∧
      invocations Event.fetchFormats (useEffectOnMount (.ok result) profilesResp formatsResp) = 0 ∧
      (useEffectOnMount (.ok result) profilesResp formatsResp).profiles = []) := by
  obtain ⟨success, data⟩ := result
  simp only at hsuccess hdata
  subst hsuccess hdata
  constructor
  · intro hmc
    subst hmc
    cases profilesResp <;> cases formatsResp <;>
      simp [useEffectOnMount, fetchGitStatus, fetchProfiles, fetchFormats, record, invocations,
        initialState, orEmpty]
  · intro hmc
    cases merge_conflicts with
    | nil => exact absurd rfl hmc
    | cons c cs =>
      simp [useEffectOnMount, fetchGitStatus, record, invocations, initialState, orEmpty]

/-- Witness of C1 on two concrete status results. -/
theorem gate_decides_data_loading_witness :
    (invocations Event.fetchProfiles
        (useEffectOnMount (.ok ⟨true, some ⟨some []⟩⟩) (.ok [sampleProfile]) (.ok [])) = 1 ∧
      invocations Event.fetchFormats
        (useEffectOnMount (.ok ⟨true, some ⟨some []⟩⟩) (.ok [sampleProfile]) (.ok [])) = 1) ∧
    (invocations Event.fetchProfiles
        (useEffectOnMount (.ok ⟨true, some ⟨some [⟨"profiles/a.yml"⟩]⟩⟩)
          (.ok [sampleProfile]) (.ok [])) = 0 ∧
      invocations Event.fetchFormats
        (useEffectOnMount (.ok ⟨true, some ⟨some [⟨"profiles/a.yml"⟩]⟩⟩)
          (.ok [sampleProfile]) (.ok [])) = 0 ∧
      (useEffectOnMount (.ok ⟨true, some ⟨some [⟨"profiles/a.yml"⟩]⟩⟩)
          (.ok [sampleProfile]) (.ok [])).profiles = []) :=
  ⟨(gate_decides_data_loading ⟨true, some ⟨some []⟩⟩ [] (.ok [sampleProfile]) (.ok [])
      rfl rfl).1 rfl,
   (gate_decides_data_loading ⟨true, some ⟨some [⟨"profiles/a.yml"⟩]⟩⟩ [⟨"profiles/a.yml"⟩]
      (.ok [sampleProfile]) (.ok []) rfl rfl).2 (by decide)⟩

/-- C2, as stated, fails: the view is activated without conflicts, the modal is opened for
create and a save completes.  `fetchProfiles` has then run twice but `fetchFormats` still
only once (the run of the activation): the format fetch is not issued again. -/
theorem save_does_not_refetch_formats :
    invocations Event.fetchFormats
        (handleOpenModal none
          (useEffectOnMount (.ok ⟨true, some ⟨some []⟩⟩) (.ok []) (.ok []))) = 1 ∧
    invocations Event.fetchFormats
        (handleSaveProfile (.ok [sampleProfile])
          (handleOpenModal none
            (useEffectOnMount (.ok ⟨true, some ⟨some []⟩⟩) (.ok []) (.ok [])))) = 1 ∧
    invocations Event.fetchProfiles
        (handleSaveProfile (.ok [sampleProfile])
          (handleOpenModal none
            (useEffectOnMount (.ok ⟨true, some ⟨some []⟩⟩) (.ok []) (.ok [])))) = 2 := by
  decide

/-- C2, amended: after a save-completion signal from any state the profile fetch is issued
once more, the format fetch is not issued and the held formats are left as they were, and
the modal is closed (`isModalOpen` false, `selectedProfile` null, `isCloning` false). -/
theorem save_refetches_profiles_and_closes (profilesResp : Except String (List Profile))
    (s : State) :
    invocations Event.fetchProfiles (handleSaveProfile profilesResp s) =
      invocations Event.fetchProfiles s + 1 ∧
    invocations Event.fetchFormats (handleSaveProfile profilesResp s) =
      invocations Event.fetchFormats s ∧
    (handleSaveProfile profilesResp s).formats = s.formats ∧
    (handleSaveProfile profilesResp s).isModalOpen = false ∧
    (handleSaveProfile profilesResp s).selectedProfile = none ∧
    (handleSaveProfile profilesResp s).isCloning = false := by
  cases profilesResp <;>
    simp [handleSaveProfile, handleCloseModal, fetchProfiles, record, invocations]

/-- C3 at the failing input: the status request resolves with `success` false.  Neither
fetch is invoked, but `isLoading` is still true afterwards: the loading indicator is not
stopped.  When the request throws instead, it is stopped. -/
theorem unsuccessful_status_leaves_loading (data : Option GitData)
    (profilesResp : Except String (List Profile)) (formatsResp : Except String (List Format))
    (error : String) :
    (useEffectOnMount (.ok ⟨false, data⟩) profilesResp formatsResp).isLoading = true ∧
    invocations Event.fetchProfiles
      (useEffectOnMount (.ok ⟨false, data⟩) profilesResp formatsResp) = 0 ∧
    invocations Event.fetchFormats
      (useEffectOnMount (.ok ⟨false, data⟩) profilesResp formatsResp) = 0 ∧
    (useEffectOnMount (.error error) profilesResp formatsResp).isLoading = false ∧
    invocations Event.fetchProfiles
      (useEffectOnMount (.error error) profilesResp formatsResp) = 0 ∧
    invocations Event.fetchFormats
      (useEffectOnMount (.error error) profilesResp formatsResp) = 0 := by
  simp [useEffectOnMount, fetchGitStatus, fetchGitStatusCatch, record, invocations,
    initialState]

/-- C9: after a successful profile fetch returning `ps` the held collection is `ps`, the
held tag list has no duplicate, and it contains `t` exactly when `t` occurs in the tag list
of some profile of `ps` (a profile without tag list contributes nothing). -/
theorem fetched_tags_distinct_union (ps : List Profile) (s : State) :
    (fetchProfiles (.ok ps) s).profiles = ps ∧
    (fetchProfiles (.ok ps) s).allTags.Nodup ∧
    ∀ t : String, t ∈ (fetchProfiles (.ok ps) s).allTags ↔
      ∃ p ∈ ps, ∃ tags, p.tags = some tags ∧ t ∈ tags := by
  refine ⟨rfl, nodup_spreadSet _, ?_⟩
  intro t
  show t ∈ spreadSet (ps.flatMap (fun profile => orEmpty profile.tags)) ↔ _
  rw [mem_spreadSet, List.mem_flatMap]
  constructor
  · rintro ⟨p, hp, ht⟩
    cases htags : p.tags with
    | none => rw [htags] at ht; simp [orEmpty] at ht
    | some tags =>
      rw [htags] at ht
      exact ⟨p, hp, tags, htags, ht⟩
  · rintro ⟨p, hp, tags, htags, ht⟩
    refine ⟨p, hp, ?_⟩
    rw [htags]
    exact ht

/-! ## Modal lifecycle -/

/-- C4: for every profile `p` and every prior state, `handleCloneProfile p` leaves the
modal open in clone mode with a payload of id `0`, of name `p.name` followed by ` [COPY]`,
whose `custom_formats` is that of `p` when present and the empty list when absent, and
whose other fields are those of `p`. -/
theorem clone_derives_payload (p : Profile) (s : State) :
    (handleCloneProfile p s).isModalOpen = true ∧
    (handleCloneProfile p s).isCloning = true ∧
    ∃ q, (handleCloneProfile p s).selectedProfile = some q ∧
      q.id = 0 ∧ q.name = p.name ++ " [COPY]" ∧
      (∀ l, p.custom_formats = some l → q.custom_formats = some l) ∧
      (p.custom_formats = none → q.custom_formats = some []) ∧
      q.tags = p.tags ∧ q.date_created = p.date_created ∧
      q.date_modified = p.date_modified ∧ q.rest = p.rest := by
  refine ⟨rfl, rfl, _, rfl, rfl, rfl, ?_, ?_, rfl, rfl, rfl, rfl⟩
  · intro l hl
    simp [hl, orEmpty]
  · intro hl
    simp [hl, orEmpty]

/-- Witness of C4: cloning the profile `Default` of id 7, which has no format list, while
the modal is open for edit. -/
theorem clone_derives_payload_witness :
    ∃ q, (handleCloneProfile sampleProfile
        (handleOpenModal (some sampleProfileLate) initialState)).selectedProfile = some q ∧
      q.id = 0 ∧ q.name = "Default [COPY]" ∧ q.custom_formats = some [] :=
  match clone_derives_payload sampleProfile
      (handleOpenModal (some sampleProfileLate) initialState) with
  | ⟨_, _, q, hq, hid, hname, _, hnone, _⟩ => ⟨q, hq, hid, hname, hnone rfl⟩

/-- C10: for every profile `p` and every prior state (closed, create, edit or clone),
`handleOpenModal p` leaves the modal open for edit: `isModalOpen` true, `isCloning` false,
and a payload equal to `p` except that `custom_formats` is the empty list when `p` has
none.  In particular the request overrides a modal open in create or clone mode. -/
theorem edit_overrides_modal (p : Profile) (s : State) :
    (handleOpenModal (some p) s).isModalOpen = true ∧
    (handleOpenModal (some p) s).isCloning = false ∧
    ∃ q, (handleOpenModal (some p) s).selectedProfile = some q ∧
      (∀ l, p.custom_formats = some l → q = p) ∧
      (p.custom_formats = none → q.custom_formats = some []) ∧
      q.id = p.id ∧ q.name = p.name ∧ q.tags = p.tags ∧
      q.date_created = p.date_created ∧ q.date_modified = p.date_modified ∧
      q.rest = p.rest := by
  refine ⟨rfl, rfl, _, rfl, ?_, ?_, rfl, rfl, rfl, rfl, rfl, rfl⟩
  · intro l hl
    obtain ⟨id, name, tags, dc, dm, cf, rest⟩ := p
    simp only at hl
    subst hl
    rfl
  · intro hl
    simp [hl, orEmpty]

/-- Witness of C10: an edit request on a modal open for create, and on one open for clone. -/
theorem edit_overrides_modal_witness :
    ((handleOpenModal (some sampleProfileLate) (handleOpenModal none initialState)).isCloning
        = false ∧
      (handleOpenModal (some sampleProfileLate)
        (handleOpenModal none initialState)).selectedProfile = some sampleProfileLate) ∧
    ((handleOpenModal (some sampleProfileLate)
        (handleCloneProfile sampleProfile initialState)).isCloning = false ∧
      (handleOpenModal (some sampleProfileLate)
        (handleCloneProfile sampleProfile initialState)).selectedProfile
          = some sampleProfileLate) :=
  ⟨match edit_overrides_modal sampleProfileLate (handleOpenModal none initialState) with
    | ⟨_, hc, q, hq, hsome, _⟩ => ⟨hc, by rw [hq, hsome [3, 4] rfl]⟩,
   match edit_overrides_modal sampleProfileLate
      (handleCloneProfile sampleProfile initialState) with
    | ⟨_, hc, q, hq, hsome, _⟩ => ⟨hc, by rw [hq, hsome [3, 4] rfl]⟩⟩

/-! ## Sort and filter projection -/

/-- C5: with filter kind `tag` and filter value `x`, whatever the sort key, a profile is in
the projection exactly when it is in the held collection and its tag list contains `x`; a
profile whose tag list is absent or empty is never in the projection. -/
theorem tag_filter_exact (env : Platform) (s : State) (x : String)
    (hkind : s.filterType = "tag") (hvalue : s.filterValue = x) :
    (∀ p : Profile, p ∈ sortedAndFilteredProfiles env s ↔
      p ∈ s.profiles ∧ ∃ tags, p.tags = some tags ∧ x ∈ tags) ∧
    (∀ p : Profile, p.tags = none ∨ p.tags = some [] →
      p ∉ sortedAndFilteredProfiles env s) := by
  have key : ∀ p : Profile, p ∈ sortedAndFilteredProfiles env s ↔
      p ∈ s.profiles ∧ ∃ tags, p.tags = some tags ∧ x ∈ tags := by
    intro p
    rw [mem_sortedAndFilteredProfiles, hkind, hvalue]
    cases htags : p.tags with
    | none => simp [filterCallback, htags]
    | some tags => simp [filterCallback, htags]
  refine ⟨key, ?_⟩
  intro p hp hmem
  obtain ⟨_, tags, htags, hx⟩ := (key p).mp hmem
  rcases hp with hp | hp
  · rw [hp] at htags
    exact Option.noConfusion htags
  · rw [hp] at htags
    cases htags
    exact List.not_mem_nil x hx

/-- Witness of C5: filtering the two sample profiles by the tag `x`, sorted by name. -/
theorem tag_filter_exact_witness :
    (sampleProfile ∈ sortedAndFilteredProfiles samplePlatform
        { initialState with
          profiles := [sampleProfileLate, sampleProfile]
          filterType := "tag", filterValue := "x", sortBy := "name" } ↔
      sampleProfile ∈ [sampleProfileLate, sampleProfile] ∧
        ∃ tags, sampleProfile.tags = some tags ∧ "x" ∈ tags) ∧
    sampleProfileLate ∉ sortedAndFilteredProfiles samplePlatform
        { initialState with
          profiles := [sampleProfileLate, sampleProfile]
          filterType := "tag", filterValue := "x", sortBy := "name" } :=
  ⟨(tag_filter_exact samplePlatform
      { initialState with
        profiles := [sampleProfileLate, sampleProfile]
        filterType := "tag", filterValue := "x", sortBy := "name" } "x" rfl rfl).1
      sampleProfile,
   (tag_filter_exact samplePlatform
      { initialState with
        profiles := [sampleProfileLate, sampleProfile]
        filterType := "tag", filterValue := "x", sortBy := "name" } "x" rfl rfl).2
      sampleProfileLate (Or.inl rfl)⟩

/-- C6, as stated, fails: with filter kind `date` and the default empty filter value, which
does not parse, a profile without `date_modified` is retained, because both dates print as
`Invalid Date` and the two texts are equal. -/
theorem invalid_date_filter_matches_invalid_date :
    samplePlatform.dateParse "" = none ∧
    sampleProfileLate.date_modified = none ∧
    sortedAndFilteredProfiles samplePlatform
      { initialState with
        profiles := [sampleProfile, sampleProfileLate]
        filterType := "date", filterValue := "" } = [sampleProfileLate] := by
  decide

/-- C6, amended: with filter kind `date` and a filter value that does not parse as a date,
a profile is in the projection exactly when it is in the held collection and its own
`date_modified` is missing or does not parse; hence the projection is empty for every
collection whose profiles all have a `date_modified` that parses. -/
theorem invalid_date_filter_keeps_only_invalid (env : Platform) (s : State)
    (hkind : s.filterType = "date") (hvalue : env.dateParse s.filterValue = none) :
    (∀ p : Profile, p ∈ sortedAndFilteredProfiles env s ↔
      p ∈ s.profiles ∧ newDate env p.date_modified = none) ∧
    ((∀ p ∈ s.profiles, ∃ t, newDate env p.date_modified = some t) →
      sortedAndFilteredProfiles env s = []) := by
  have key : ∀ p : Profile, p ∈ sortedAndFilteredProfiles env s ↔
      p ∈ s.profiles ∧ newDate env p.date_modified = none := by
    intro p
    rw [mem_sortedAndFilteredProfiles, hkind]
    have hfv : newDate env (some s.filterValue) = none := hvalue
    cases hd : newDate env p.date_modified with
    | none => simp [filterCallback, hd, hfv]
    | some t => simp [filterCallback, hd, hfv, toDateString, env.dayString_valid t]
  refine ⟨key, ?_⟩
  intro hall
  apply List.eq_nil_iff_forall_not_mem.mpr
  intro p hp
  obtain ⟨hmem, hnone⟩ := (key p).mp hp
  obtain ⟨t, ht⟩ := hall p hmem
  rw [hnone] at ht
  exact Option.noConfusion ht

/-- Witness of C6 amended: the empty filter value on a collection whose only profile has a
modification date that parses. -/
theorem invalid_date_filter_keeps_only_invalid_witness :
    sortedAndFilteredProfiles samplePlatform
      { initialState with profiles := [sampleProfile], filterType := "date" } = [] :=
  (invalid_date_filter_keeps_only_invalid samplePlatform
      { initialState with profiles := [sampleProfile], filterType := "date" } rfl rfl).2
    (by
      intro p hp
      rw [List.mem_singleton.mp hp]
      exact ⟨1717200000000, by decide⟩)

/-- C7: with sort key `dateCreated`, for every collection whose `date_created` values all
parse and for every filter, the projection is a permutation of the profiles retained by the
filter, is ordered by non-increasing creation time, and keeps profiles of equal creation
time in their input order. -/
theorem dateCreated_sort_descending_stable (env : Platform) (s : State)
    (hsort : s.sortBy = "dateCreated")
    (hparse : ∀ p ∈ s.profiles, ∃ t, newDate env p.date_created = some t) :
    (sortedAndFilteredProfiles env s).Perm
      (s.profiles.filter (filterCallback env s.filterType s.filterValue)) ∧
    (sortedAndFilteredProfiles env s).Pairwise
      (fun a b => ∃ ta tb, newDate env a.date_created = some ta ∧
        newDate env b.date_created = some tb ∧ tb ≤ ta) ∧
    ∀ t : Int,
      (sortedAndFilteredProfiles env s).filter
          (fun p => decide (newDate env p.date_created = some t)) =
        (s.profiles.filter (filterCallback env s.filterType s.filterValue)).filter
          (fun p => decide (newDate env p.date_created = some t)) := by
  have hretained : ∀ p ∈ s.profiles.filter (filterCallback env s.filterType s.filterValue),
      ∃ t, newDate env p.date_created = some t :=
    fun p hp => hparse p (List.mem_filter.mp hp).1
  have hout : ∀ p ∈ sortedAndFilteredProfiles env s,
      ∃ t, newDate env p.date_created = some t := by
    intro p hp
    rw [sortedAndFilteredProfiles_eq] at hp
    exact hretained p ((jsSort_perm _ _).mem_iff.mp hp)
  have hcmp : ∀ a ∈ s.profiles.filter (filterCallback env s.filterType s.filterValue),
      ∀ b ∈ s.profiles.filter (filterCallback env s.filterType s.filterValue),
      (sortCompare (sortCallback env s.sortBy) a b ≤ 0 ↔
        (newDate env b.date_created).getD 0 ≤ (newDate env a.date_created).getD 0) := by
    intro a ha b hb
    obtain ⟨ta, hta⟩ := hretained a ha
    obtain ⟨tb, htb⟩ := hretained b hb
    simp [sortCompare, sortCallback, hsort, hta, htb, dateSub]
  have hstable := jsSort_sorted_stable (sortCallback env s.sortBy)
    (fun p => (newDate env p.date_created).getD 0) _ hcmp
  rw [← sortedAndFilteredProfiles_eq] at hstable
  refine ⟨?_, ?_, ?_⟩
  · rw [sortedAndFilteredProfiles_eq]
    exact jsSort_perm _ _
  · refine List.Pairwise.imp_of_mem ?_ hstable.1
    intro a b ha hb hab
    obtain ⟨ta, hta⟩ := hout a ha
    obtain ⟨tb, htb⟩ := hout b hb
    refine ⟨ta, tb, hta, htb, ?_⟩
    simpa [hta, htb] using hab
  · intro t
    have h1 : ∀ (l : List Profile), (∀ p ∈ l, ∃ u, newDate env p.date_created = some u) →
        l.filter (fun p => decide (newDate env p.date_created = some t)) =
          l.filter (fun p => decide ((newDate env p.date_created).getD 0 = t)) := by
      intro l hl
      apply List.filter_congr
      intro p hp
      obtain ⟨u, hu⟩ := hl p hp
      simp [hu]
    rw [h1 _ hout, h1 _ hretained]
    exact hstable.2 t

/-- Witness of C7: the profile created on 2024-06-01 comes before the one created on
2024-01-01. -/
theorem dateCreated_sort_descending_stable_witness :
    (sortedAndFilteredProfiles samplePlatform
      { initialState with
        profiles := [sampleProfile, sampleProfileLate], sortBy := "dateCreated" }).Perm
      ([sampleProfile, sampleProfileLate].filter (filterCallback samplePlatform "none" "")) ∧
    sortedAndFilteredProfiles samplePlatform
      { initialState with
        profiles := [sampleProfile, sampleProfileLate], sortBy := "dateCreated" } =
      [sampleProfileLate, sampleProfile] :=
  ⟨(dateCreated_sort_descending_stable samplePlatform
      { initialState with
        profiles := [sampleProfile, sampleProfileLate], sortBy := "dateCreated" } rfl
      (by
        intro p hp
        rcases List.mem_cons.mp hp with rfl | hp
        · exact ⟨1704067200000, by decide⟩
        · rw [List.mem_singleton.mp hp]
          exact ⟨1717200000000, by decide⟩)).1,
   by decide⟩

/-- C8: with filter kind `none` and sort key `title`, for every collection and every filter
value, the projection equals the held collection element for element in the same order;
and on the array store the projection is a fresh array, the array held in the `profiles`
cell having the same contents after the computation as before. -/
theorem no_filter_title_sort_identity (env : Platform) (s : State)
    (hkind : s.filterType = "none") (hsort : s.sortBy = "title") :
    sortedAndFilteredProfiles env s = s.profiles ∧
    ∀ (σ : ArrayStore) (profilesRef : Nat),
      profilesRef < σ.length → σ.getD profilesRef [] = s.profiles →
      (sortedAndFilteredProfilesOn env s σ profilesRef).1.getD profilesRef [] = s.profiles ∧
      (sortedAndFilteredProfilesOn env s σ profilesRef).2 ≠ profilesRef ∧
      (sortedAndFilteredProfilesOn env s σ profilesRef).1.getD
        (sortedAndFilteredProfilesOn env s σ profilesRef).2 [] = s.profiles := by
  have hfilter : ∀ l : List Profile,
      l.filter (filterCallback env s.filterType s.filterValue) = l := by
    intro l
    apply List.filter_eq_self.mpr
    intro p _
    simp [filterCallback, hkind]
  have hsorted : ∀ l : List Profile, jsSort (sortCallback env s.sortBy) l = l := by
    intro l
    apply jsSort_of_le_zero
    intro a b
    simp [sortCompare, sortCallback, hsort]
  refine ⟨?_, ?_⟩
  · rw [sortedAndFilteredProfiles_eq, hfilter, hsorted]
  · intro σ r hr hheld
    rw [sortedAndFilteredProfilesOn_eq, hfilter, hsorted]
    refine ⟨?_, Nat.ne_of_gt hr, ?_⟩
    · rw [← hheld]
      simp [List.getD_eq_getElem?_getD, List.getElem?_append_left hr]
    · rw [← hheld]
      simp [List.getD_eq_getElem?_getD]

/-- Witness of C8: the default selection with a leftover filter value. -/
theorem no_filter_title_sort_identity_witness :
    sortedAndFilteredProfiles samplePlatform
      { initialState with
        profiles := [sampleProfile, sampleProfileLate], filterValue := "x" } =
      [sampleProfile, sampleProfileLate] ∧
    (sortedAndFilteredProfilesOn samplePlatform
      { initialState with
        profiles := [sampleProfile, sampleProfileLate], filterValue := "x" }
      [[sampleProfile, sampleProfileLate]] 0).1.getD 0 [] =
      [sampleProfile, sampleProfileLate] :=
  ⟨(no_filter_title_sort_identity samplePlatform
      { initialState with
        profiles := [sampleProfile, sampleProfileLate], filterValue := "x" } rfl rfl).1,
   ((no_filter_title_sort_identity samplePlatform
      { initialState with
        profiles := [sampleProfile, sampleProfileLate], filterValue := "x" } rfl rfl).2
      [[sampleProfile, sampleProfileLate]] 0 (by decide) rfl).1⟩

end ProfilePage
